import Mathlib

/-!
Shallow embedding of the appointment-booking core of the clinic assistant
repository: the text extractors of `src/services/appointment_service.py`,
the schedule store of `src/services/medical_db_service.py`, and the
booking handler of `src/agents/medical_agent.py`.

Modelling conventions, used throughout:
* Python `datetime.date` values are `CivilDate` records; `datetime(y, m, d)`
  raising `ValueError` is `mkDate` returning `none`.
* Clock times (`"HH:MM"` strings parsed with `strptime("%H:%M")`) are
  minutes after midnight (`Nat`); the canonical two-digit string form and
  the parsed value determine each other uniquely.
* Input texts are taken after the source's `.lower()` call (the extractors
  lowercase first and only ever inspect the lowered text).
* Python dict / string falsiness: an absent optional argument is `none`;
  where the source distinguishes a present-but-empty string, the model
  keeps `some ""` and tests emptiness exactly where the source tests
  falsiness.
-/

namespace Clinic

/-- Calendar date, the model of a Python `datetime.date`. -/
structure CivilDate where
  year : Nat
  month : Nat
  day : Nat
deriving DecidableEq, Repr

/-- Gregorian leap-year rule, as implemented by Python's `datetime`. -/
def isLeapYear (y : Nat) : Bool :=
  y % 4 == 0 && (y % 100 != 0 || y % 400 == 0)

/-- Number of days in a month of a given year. -/
def daysInMonth (y m : Nat) : Nat :=
  if m = 2 then (if isLeapYear y then 29 else 28)
  else if m = 4 || m = 6 || m = 9 || m = 11 then 30
  else 31

/-- Whether (y, m, d) names a real calendar date: exactly the condition
under which Python's `datetime(year, month, day)` does not raise. -/
def validDate (y m d : Nat) : Bool :=
  1 ≤ m && m ≤ 12 && 1 ≤ d && d ≤ daysInMonth y m

/-- Model of the `datetime(year, month, day)` constructor: `none` is the
`ValueError` the source catches. -/
def mkDate (y m d : Nat) : Option CivilDate :=
  if validDate y m d then some ⟨y, m, d⟩ else none

/-- Successor date (used to model `timedelta(days=1)` steps). -/
def nextDay (dt : CivilDate) : CivilDate :=
  if dt.day < daysInMonth dt.year dt.month then ⟨dt.year, dt.month, dt.day + 1⟩
  else if dt.month < 12 then ⟨dt.year, dt.month + 1, 1⟩
  else ⟨dt.year + 1, 1, 1⟩

/-- Model of `date + timedelta(days=n)`. -/
def addDays (dt : CivilDate) : Nat → CivilDate
  | 0 => dt
  | n + 1 => addDays (nextDay dt) n

/-- Weekday with Monday = 0, matching Python's `date.weekday()`.  Uses the
standard civil-from-days counting; calibrated so that 2024-03-15 is a
Friday (4). -/
def civilWeekday (dt : CivilDate) : Nat :=
  let y := if dt.month ≤ 2 then dt.year - 1 else dt.year
  let era := y / 400
  let yoe := y % 400
  let mp := if dt.month > 2 then dt.month - 3 else dt.month + 9
  let doy := (153 * mp + 2) / 5 + dt.day - 1
  let doe := yoe * 365 + yoe / 4 - yoe / 100 + doy
  (era * 146097 + doe + 2) % 7

/-- Strict ordering of dates (lexicographic on year, month, day), the model
of comparing two `datetime` values that fall on distinct days. -/
def dateLtB (a b : CivilDate) : Bool :=
  a.year < b.year ||
  (a.year == b.year && (a.month < b.month ||
    (a.month == b.month && a.day < b.day)))

/-- Whether the character list `p` is an initial segment of `l`. -/
def startsWithC : List Char → List Char → Bool
  | [], _ => true
  | _ :: _, [] => false
  | p :: ps, c :: cs => p == c && startsWithC ps cs

/-- Whether `p` occurs contiguously somewhere in `l`: the model of
Python's `pat in text` substring test. -/
def containsSubC (p : List Char) : List Char → Bool
  | [] => startsWithC p []
  | c :: cs => startsWithC p (c :: cs) || containsSubC p cs

/-- Substring test on strings (`pat in text` in the source). -/
def containsSub (pat text : String) : Bool :=
  containsSubC pat.toList text.toList

/-- The `weekday_mapping` table of `AppointmentService.__init__`, in its
insertion order; the English day names the source maps to are identified
with their index in its `weekdays` list (Monday = 0). -/
def weekday_mapping : List (String × Nat) :=
  [("понедельник", 0), ("вторник", 1), ("среда", 2), ("четверг", 3),
   ("пятница", 4), ("суббота", 5), ("воскресенье", 6),
   ("пн", 0), ("вт", 1), ("ср", 2), ("чт", 3), ("пт", 4), ("сб", 5), ("вс", 6)]

/-- The `month_mapping` table of `AppointmentService.__init__`. -/
def month_mapping : List (String × Nat) :=
  [("января", 1), ("февраля", 2), ("марта", 3), ("апреля", 4),
   ("мая", 5), ("июня", 6), ("июля", 7), ("августа", 8),
   ("сентября", 9), ("октября", 10), ("ноября", 11), ("декабря", 12)]

/-- Model of `AppointmentService._get_next_weekday_date`: the next date
strictly after `today` falling on weekday `target` (Monday = 0).  The
source computes `days_ahead = target - current` and adds 7 when that is
not positive. -/
def get_next_weekday_date (today : CivilDate) (target : Nat) : CivilDate :=
  let cur := civilWeekday today
  let diff := (target + 7 - cur) % 7
  addDays today (if diff = 0 then 7 else diff)

/-- Numeric value of a decimal digit character. -/
def digitVal (c : Char) : Nat := c.toNat - '0'.toNat

/-- Consume exactly `k` decimal digits, returning their value and the rest
of the input. -/
def grabDigits : Nat → Nat → List Char → Option (Nat × List Char)
  | 0, acc, cs => some (acc, cs)
  | _ + 1, _, [] => none
  | k + 1, acc, c :: cs =>
      if c.isDigit then grabDigits k (acc * 10 + digitVal c) cs else none

/-- Greedy match of the regex `\d{1,2}` with backtracking: try two digits
first, then one, feeding each into the continuation. -/
def tryD12 (cs : List Char) (cont : Nat → List Char → Option α) : Option α :=
  match grabDigits 2 0 cs with
  | some (v, rest) =>
    match cont v rest with
    | some r => some r
    | none =>
      match grabDigits 1 0 cs with
      | some (v1, rest1) => cont v1 rest1
      | none => none
  | none =>
    match grabDigits 1 0 cs with
    | some (v1, rest1) => cont v1 rest1
    | none => none

/-- Attempt to match `(\d{1,2})\.(\d{1,2})\.(\d{4})` at the head of the
input, returning the captured (day, month, year). -/
def matchDMYat (cs : List Char) : Option (Nat × Nat × Nat) :=
  tryD12 cs fun d rest =>
    match rest with
    | '.' :: r2 =>
      tryD12 r2 fun m r3 =>
        match r3 with
        | '.' :: r4 =>
          match grabDigits 4 0 r4 with
          | some (y, _) => some (d, m, y)
          | none => none
        | _ => none
    | _ => none

/-- Attempt to match `(\d{1,2})\.(\d{1,2})` at the head of the input. -/
def matchDMat (cs : List Char) : Option (Nat × Nat) :=
  tryD12 cs fun d rest =>
    match rest with
    | '.' :: r2 => tryD12 r2 fun m _ => some (d, m)
    | _ => none

/-- Drop the longest run of whitespace, requiring at least one character:
the regex `\s+`. -/
def skipWs1 : List Char → Option (List Char)
  | [] => none
  | c :: cs =>
      if c.isWhitespace then some (cs.dropWhile Char.isWhitespace) else none

/-- First Russian genitive month name (in the alternation order of the
source regex) appearing at the head of the input. -/
def matchMonthName (cs : List Char) : Option String :=
  (month_mapping.find? fun p => startsWithC p.1.toList cs).map (·.1)

/-- Attempt to match `(\d{1,2})\s+(января|...|декабря)` at the head of the
input, returning the captured day and month name. -/
def matchDMonthAt (cs : List Char) : Option (Nat × String) :=
  tryD12 cs fun d rest =>
    match skipWs1 rest with
    | some r2 =>
      match matchMonthName r2 with
      | some name => some (d, name)
      | none => none
    | none => none

/-- Leftmost-match search, the model of `re.search`: try the matcher at
every suffix, earliest starting position first. -/
def searchAt (f : List Char → Option α) : List Char → Option α
  | [] => f []
  | c :: cs =>
    match f (c :: cs) with
    | some r => some r
    | none => searchAt f cs

/-- Whether a `datetime` at midnight of `dt` compares `<` to
`datetime.now()`: true when `dt` is before today, or equals today and any
time has passed since midnight (`nowPastMidnight`). -/
def beforeNow (dt today : CivilDate) (nowPastMidnight : Bool) : Bool :=
  dateLtB dt today || (dt == today && nowPastMidnight)

/-- Branch of `AppointmentService._parse_date_match` for the
`ДД.ММ.ГГГГ` pattern: build the date, falling back to today's date when
the constructor raises. -/
def parse_date_match_dmy (today : CivilDate) (d m y : Nat) : CivilDate :=
  match mkDate y m d with
  | some dt => dt
  | none => today

/-- Branch of `AppointmentService._parse_date_match` for the `ДД.ММ`
pattern: current year, rolling to the next year when the date already
passed; any `ValueError` yields today's date. -/
def parse_date_match_dm (today : CivilDate) (nowPastMidnight : Bool)
    (d m : Nat) : CivilDate :=
  match mkDate today.year m d with
  | none => today
  | some dt =>
    if beforeNow dt today nowPastMidnight then
      match mkDate (today.year + 1) m d with
      | some dt' => dt'
      | none => today
    else dt

/-- Branch of `AppointmentService._parse_date_match` for the
`ДД month-name` pattern: look the month up (default 1, as in the source's
`.get(month_name, 1)`), then behave like the `ДД.ММ` branch. -/
def parse_date_match_month (today : CivilDate) (nowPastMidnight : Bool)
    (d : Nat) (name : String) : CivilDate :=
  parse_date_match_dm today nowPastMidnight d
    ((month_mapping.lookup name).getD 1)

/-- Model of `AppointmentService.parse_date_from_text`: relative keywords
first (substring tests, in the source's `if/elif` order), then the weekday
table, then the three regex patterns in the order of `date_patterns`.
`nowPastMidnight` abstracts the time-of-day component of
`datetime.now()` used by the past-date rollover comparison. -/
def parse_date_from_text (today : CivilDate) (nowPastMidnight : Bool)
    (text : String) : Option CivilDate :=
  let cs := text.toList
  if containsSub "сегодня" text then some today
  else if containsSub "завтра" text then some (addDays today 1)
  else if containsSub "послезавтра" text then some (addDays today 2)
  else
    match weekday_mapping.find? (fun p => containsSub p.1 text) with
    | some p => some (get_next_weekday_date today p.2)
    | none =>
      match searchAt matchDMYat cs with
      | some (d, m, y) => some (parse_date_match_dmy today d m y)
      | none =>
        match searchAt matchDMat cs with
        | some (d, m) => some (parse_date_match_dm today nowPastMidnight d m)
        | none =>
          match searchAt matchDMonthAt cs with
          | some (d, name) =>
              some (parse_date_match_month today nowPastMidnight d name)
          | none => none

/-- Decimal digit character for a value below 10. -/
def digitChar (n : Nat) : Char := Char.ofNat ('0'.toNat + n)

/-- Two-digit zero-padded decimal rendering: Python's `f"{n:02d}"` for the
hour and minute values (always below 100) produced by the time parser. -/
def fmt2 (n : Nat) : String := String.mk [digitChar (n / 10), digitChar (n % 10)]

/-- Render an (hour, minute) pair as the `"HH:MM"` string the time parser
returns. -/
def timeString (h m : Nat) : String := fmt2 h ++ ":" ++ fmt2 m

/-- Which of the six `time_patterns` of
`AppointmentService.parse_time_from_text` matched, with the captured
numeric groups (each group is `\d{1,2}` or `\d{2}`, hence below 100). -/
inductive TimeMatch where
  | colon (h m : Nat)
  | dot (h m : Nat)
  | vHour (h : Nat)
  | morning (h : Nat)
  | afternoon (h : Nat)
  | evening (h : Nat)
deriving DecidableEq, Repr

/-- Model of `AppointmentService._parse_time_match`: the per-pattern
hour/minute conversions, keyed by which pattern matched. -/
def parse_time_match : TimeMatch → String
  | .colon h m => timeString h m
  | .dot h m => timeString h m
  | .vHour h => timeString h 0
  | .morning h => timeString (if h == 12 then 0 else h) 0
  | .afternoon h => timeString (if h < 12 then h + 12 else h) 0
  | .evening h => timeString (if h < 12 then h + 12 else h) 0

/-- Status of a stored appointment (`"scheduled"` / `"cancelled"`). -/
inductive ApptStatus where
  | scheduled
  | cancelled
deriving DecidableEq, Repr

/-- A record of the `appointments` list of `MedicalDBService.data`.  The
`date` is the parsed `YYYY-MM-DD` string, `time` the parsed `HH:MM`
string (minutes after midnight); `createdAt` / `cancelledAt` stand for the
ISO timestamps taken from `datetime.now()`. -/
structure Appointment where
  id : String
  doctorId : String
  patientName : String
  patientPhone : String
  date : CivilDate
  time : Nat
  serviceId : String
  complaint : String
  status : ApptStatus
  createdAt : Nat
  cancelledAt : Option Nat
deriving DecidableEq, Repr

/-- A record of the `doctors` list (the fields the booking logic reads). -/
structure Doctor where
  id : String
  name : String
  specialty : String
  room : String
deriving DecidableEq, Repr

/-- A working window of the weekly schedule: the parsed `start` / `end`
times in minutes after midnight. -/
structure Window where
  startT : Nat
  endT : Nat
deriving DecidableEq, Repr

/-- A record of the `patients` list. -/
structure Patient where
  id : String
  name : String
  phone : String
  email : String
  birthDate : String
  createdAt : Nat
deriving DecidableEq, Repr

/-- The in-memory store `MedicalDBService.data`.  `schedule` maps a doctor
id to its weekly template, keyed by weekday (Monday = 0); a missing entry
is the empty dict the source treats as "does not work". -/
structure MedState where
  doctors : List Doctor
  schedule : List (String × List (Nat × Window))
  appointments : List Appointment
  patients : List Patient
deriving DecidableEq, Repr

/-- Model of `MedicalDBService.get_doctor_schedule` with a date: resolve
the weekday of the date against the doctor's weekly template; `none` is
the empty day-schedule dict. -/
def get_doctor_schedule (st : MedState) (docId : String) (date : CivilDate) :
    Option Window :=
  match st.schedule.lookup docId with
  | none => none
  | some wk => wk.lookup (civilWeekday date)

/-- Model of `MedicalDBService.check_appointment_availability`: the doctor
works that day, the time lies in `[start, end]` inclusive, and no
non-cancelled appointment occupies the exact (doctor, date, time). -/
def check_appointment_availability (st : MedState) (docId : String)
    (date : CivilDate) (time : Nat) : Bool :=
  match get_doctor_schedule st docId date with
  | none => false
  | some w =>
    if w.startT ≤ time && time ≤ w.endT then
      st.appointments.all fun a =>
        !(a.doctorId == docId && a.date == date && a.time == time &&
          a.status != ApptStatus.cancelled)
    else false

/-- Input dict of `MedicalDBService.create_appointment`. -/
structure AppointmentData where
  doctorId : String
  patientName : String
  patientPhone : String
  date : CivilDate
  time : Nat
  serviceId : String
  complaint : String
deriving DecidableEq, Repr

/-- The result dict of `create_appointment` (success flag and generated
id; the human-readable message is determined by the branch taken). -/
structure CreateResult where
  success : Bool
  appointmentId : Option String
deriving DecidableEq, Repr

/-- Zero-padded six-digit rendering, Python's `f"{n:06d}"` for the counter
values in play. -/
def pad6 (n : Nat) : String :=
  let s := toString n
  if s.length < 6 then String.mk (List.replicate (6 - s.length) '0') ++ s else s

/-- Model of `MedicalDBService.create_appointment`: generate the id from
the current count, re-check availability, and only then append the new
scheduled appointment; an unavailable slot changes nothing. -/
def create_appointment (st : MedState) (d : AppointmentData) (now : Nat) :
    CreateResult × MedState :=
  let apptId := "apt_" ++ pad6 (st.appointments.length + 1)
  if check_appointment_availability st d.doctorId d.date d.time then
    let appt : Appointment :=
      ⟨apptId, d.doctorId, d.patientName, d.patientPhone, d.date, d.time,
        d.serviceId, d.complaint, ApptStatus.scheduled, now, none⟩
    (⟨true, some apptId⟩, { st with appointments := st.appointments ++ [appt] })
  else (⟨false, none⟩, st)

/-- Candidate slot times of the `while current_time < end_obj` loop of
`get_available_times`: `start`, `start + 30`, ... strictly below `end`.
The loop runs once per started 30-minute step, i.e.
`⌈(end - start) / 30⌉` times. -/
def slotTimes (startT endT : Nat) : List Nat :=
  (List.range ((endT - startT + 29) / 30)).map fun k => startT + 30 * k

/-- Model of `MedicalDBService.get_available_times`: every 30-minute step
of the day's window that passes the availability check, in loop order. -/
def get_available_times (st : MedState) (docId : String) (date : CivilDate) :
    List Nat :=
  match get_doctor_schedule st docId date with
  | none => []
  | some w =>
    (slotTimes w.startT w.endT).filter fun t =>
      check_appointment_availability st docId date t

/-- The in-place mutation `appointment["status"] = "cancelled"` plus the
`cancelled_at` stamp. -/
def cancelledCopy (a : Appointment) (now : Nat) : Appointment :=
  { a with status := ApptStatus.cancelled, cancelledAt := some now }

/-- The scan of `cancel_appointment`: update the first appointment whose
id matches and report whether one was found. -/
def cancelFirst (id : String) (now : Nat) :
    List Appointment → Bool × List Appointment
  | [] => (false, [])
  | a :: rest =>
    if a.id == id then (true, cancelledCopy a now :: rest)
    else
      let r := cancelFirst id now rest
      (r.1, a :: r.2)

/-- The result dict of `cancel_appointment`. -/
structure CancelResult where
  success : Bool
deriving DecidableEq, Repr

/-- Model of `MedicalDBService.cancel_appointment`: flip the first match
to cancelled (success), or report not-found leaving the store unchanged. -/
def cancel_appointment (st : MedState) (id : String) (now : Nat) :
    CancelResult × MedState :=
  let r := cancelFirst id now st.appointments
  (⟨r.1⟩, { st with appointments := r.2 })

/-- Model of `MedicalDBService.add_patient`: append a patient with a
generated `pat_` id and return the id. -/
def add_patient (st : MedState) (name phone : String) (now : Nat) :
    String × MedState :=
  let pid := "pat_" ++ pad6 (st.patients.length + 1)
  (pid, { st with patients := st.patients ++ [⟨pid, name, phone, "", "", now⟩] })

/-- Model of `MedicalDBService.find_patient_by_phone`. -/
def find_patient_by_phone (st : MedState) (phone : String) : Option Patient :=
  st.patients.find? fun p => p.phone == phone

/-- Model of `MedicalDBService.get_doctors_by_specialty`: exact match on
the specialty code, in store order. -/
def get_doctors_by_specialty (st : MedState) (spec : String) : List Doctor :=
  st.doctors.filter fun d => d.specialty == spec

/-- The `specialty_mapping` table of `AppointmentService.__init__`, in
its insertion order. -/
def specialty_mapping : List (String × String) :=
  [("терапевт", "therapy"), ("терапия", "therapy"), ("терапевта", "therapy"),
   ("кардиолог", "cardiology"), ("кардиология", "cardiology"),
   ("кардиолога", "cardiology"),
   ("невролог", "neurology"), ("неврология", "neurology"),
   ("невролога", "neurology"),
   ("гинеколог", "gynecology"), ("гинекология", "gynecology"),
   ("гинеколога", "gynecology"),
   ("уролог", "urology"), ("урология", "urology"), ("уролога", "urology"),
   ("педиатр", "pediatrics"), ("педиатрия", "pediatrics"),
   ("педиатра", "pediatrics")]

/-- Model of `AppointmentService.normalize_specialty`: first table entry
whose Russian key occurs in the (lowered) text. -/
def normalize_specialty (text : String) : Option String :=
  (specialty_mapping.find? fun p => containsSub p.1 text).map (·.2)

/-- The `for i in range(max_days)` scan of `_find_next_available_date`:
first of the next `fuel` dates with a free slot. -/
def findAvailAux (st : MedState) (docId : String) :
    Nat → CivilDate → Option CivilDate
  | 0, _ => none
  | n + 1, d =>
    if get_available_times st docId d ≠ [] then some d
    else findAvailAux st docId n (nextDay d)

/-- Model of `AppointmentService._find_next_available_date`: the first of
the next 14 days with any free slot, falling back to tomorrow. -/
def find_next_available_date (st : MedState) (docId : String)
    (today : CivilDate) : CivilDate :=
  (findAvailAux st docId 14 today).getD (addDays today 1)

/-- The keyword arguments of `AppointmentService.book_appointment`;
`none` is an absent (or `None`) argument. -/
structure BookArgs where
  doctorSpecialty : Option String
  doctorName : Option String
  date : Option CivilDate
  time : Option Nat
  patientName : Option String
  patientPhone : Option String
  complaint : Option String
deriving DecidableEq, Repr

/-- The result dict of `book_appointment`: one constructor per `return`
branch of the source, carrying the data interpolated into its message. -/
inductive BookResult where
  | noSpecialty
  | unknownSpecialty
  | noDoctorsOfSpecialty (specText : String)
  | doctorNotFound (name : String)
  | noFreeTimeForDoctor (date : CivilDate) (docName : String)
  | slotTaken (time : Nat) (suggested : List Nat)
  | noFreeTimeChooseOther (date : CivilDate)
  | needName
  | needPhone
  | storeRefused
  | booked (apptId : String) (docName : String) (date : CivilDate)
      (time : Nat) (room : String)
deriving DecidableEq, Repr

/-- The `success` flag of a `book_appointment` result dict. -/
def bookSuccess : BookResult → Bool
  | .booked _ _ _ _ _ => true
  | _ => false

/-- Doctor selection of `book_appointment`: with a (truthy) requested
name, the first doctor of the list whose display name contains it;
otherwise the first doctor. -/
def select_doctor (docs : List Doctor) (dn : Option String) : Option Doctor :=
  match dn with
  | some n =>
    if n == "" then docs.head?
    else docs.find? fun d => containsSub n d.name
  | none => docs.head?

/-- Date resolution of `book_appointment`: the given date, or the nearest
date with a free slot. -/
def resolve_date (st : MedState) (docId : String) (today : CivilDate)
    (d : Option CivilDate) : CivilDate :=
  match d with
  | some dt => dt
  | none => find_next_available_date st docId today

/-- Model of `AppointmentService.book_appointment`: normalize the
specialty, pick a doctor, fill in date and time when absent, check the
slot, then look up or create the patient and commit via
`create_appointment`.  Returns the result together with the store, which
changes only on the commit path.  Python falsiness of string arguments is
tested where the source tests it (`if doctor_specialty:` etc.). -/
def book_appointment (st : MedState) (a : BookArgs) (today : CivilDate)
    (now : Nat) : BookResult × MedState :=
  match a.doctorSpecialty with
  | none => (.noSpecialty, st)
  | some sTxt =>
    if sTxt == "" then (.noSpecialty, st)
    else
      match normalize_specialty sTxt with
      | none => (.unknownSpecialty, st)
      | some spec =>
        match get_doctors_by_specialty st spec with
        | [] => (.noDoctorsOfSpecialty sTxt, st)
        | doc0 :: rest =>
          match select_doctor (doc0 :: rest) a.doctorName with
          | none => (.doctorNotFound (a.doctorName.getD ""), st)
          | some doc =>
            let date := resolve_date st doc.id today a.date
            match a.time, (get_available_times st doc.id date).head? with
            | none, none => (.noFreeTimeForDoctor date doc.name, st)
            | none, some t0 => bookAtSlot st a doc spec date t0 now
            | some t, _ => bookAtSlot st a doc spec date t now
where
  /-- Continuation of `book_appointment` once doctor, date and time are
  resolved: availability check, alternative suggestions on a taken slot,
  required-field checks, patient lookup/creation, commit. -/
  bookAtSlot (st : MedState) (a : BookArgs) (doc : Doctor) (spec : String)
      (date : CivilDate) (t : Nat) (now : Nat) : BookResult × MedState :=
    if check_appointment_availability st doc.id date t then
      match a.patientName with
      | none => (.needName, st)
      | some pn =>
        if pn == "" then (.needName, st)
        else
          match a.patientPhone with
          | none => (.needPhone, st)
          | some ph =>
            if ph == "" then (.needPhone, st)
            else
              let st1 :=
                match find_patient_by_phone st ph with
                | some _ => st
                | none => (add_patient st pn ph now).2
              let r := create_appointment st1
                ⟨doc.id, pn, ph, date, t, spec ++ "_consult",
                  a.complaint.getD ""⟩ now
              if r.1.success then
                (.booked (r.1.appointmentId.getD "") doc.name date t doc.room,
                  r.2)
              else (.storeRefused, r.2)
    else
      match get_available_times st doc.id date with
      | [] => (.noFreeTimeChooseOther date, st)
      | ts => (.slotTaken t (ts.take 3), st)

/-- The per-conversation accumulator `MedicalAgent.appointment_context`.
String fields keep `some ""` for a present-but-empty value, mirroring the
dict's falsy entries. -/
structure BookingContext where
  specialty : Option String
  doctorName : Option String
  date : Option CivilDate
  time : Option Nat
  patientName : Option String
  patientPhone : Option String
  complaint : Option String
deriving DecidableEq, Repr

/-- The fresh (and post-success) context: the empty dict. -/
def emptyContext : BookingContext :=
  ⟨none, none, none, none, none, none, none⟩

/-- The fields extracted from one utterance
(`_extract_appointment_info`): `none` is a key absent from the returned
dict. -/
structure ExtractedInfo where
  specialty : Option String
  doctorName : Option String
  date : Option CivilDate
  time : Option Nat
  patientName : Option String
  patientPhone : Option String
  complaint : Option String
deriving DecidableEq, Repr

/-- An extraction that found nothing (the empty dict). -/
def emptyExtract : ExtractedInfo :=
  ⟨none, none, none, none, none, none, none⟩

/-- The merge `self.appointment_context.update(appointment_info)`: a key
present in the extraction overwrites, an absent key keeps the old value. -/
def updateContext (ctx : BookingContext) (e : ExtractedInfo) :
    BookingContext :=
  ⟨(e.specialty).orElse (fun _ => ctx.specialty),
   (e.doctorName).orElse (fun _ => ctx.doctorName),
   (e.date).orElse (fun _ => ctx.date),
   (e.time).orElse (fun _ => ctx.time),
   (e.patientName).orElse (fun _ => ctx.patientName),
   (e.patientPhone).orElse (fun _ => ctx.patientPhone),
   (e.complaint).orElse (fun _ => ctx.complaint)⟩

/-- The falsiness test of `_get_missing_appointment_info`:
`field not in context or not context[field]`. -/
def fieldMissing : Option String → Bool
  | none => true
  | some v => v == ""

/-- Model of `MedicalAgent._get_missing_appointment_info`: the required
fields absent from (or falsy in) the context, in the source's order. -/
def missingFields (ctx : BookingContext) : List String :=
  (if fieldMissing ctx.specialty then ["specialty"] else []) ++
  (if fieldMissing ctx.patientName then ["patient_name"] else []) ++
  (if fieldMissing ctx.patientPhone then ["patient_phone"] else [])

/-- The reply of `handle_appointment_booking`: a follow-up question, a
success report, or a failure report wrapping the booking result. -/
inductive AgentResponse where
  | ask (fields : List String)
  | bookedOk (r : BookResult)
  | bookedFail (r : BookResult)
deriving DecidableEq, Repr

/-- Whether the reply reports a successful commit. -/
def respSuccess : AgentResponse → Bool
  | .bookedOk _ => true
  | _ => false

/-- Model of `MedicalAgent.handle_appointment_booking`: merge the
extracted fields into the context, ask for missing required fields, else
attempt the booking; a success clears the context, anything else leaves
the merged context for the next turn. -/
def handle_appointment_booking (ctx : BookingContext) (e : ExtractedInfo)
    (st : MedState) (today : CivilDate) (now : Nat) :
    BookingContext × MedState × AgentResponse :=
  let merged := updateContext ctx e
  match missingFields merged with
  | f :: fs => (merged, st, .ask (f :: fs))
  | [] =>
    let r := book_appointment st
      ⟨merged.specialty, merged.doctorName, merged.date, merged.time,
        merged.patientName, merged.patientPhone, merged.complaint⟩ today now
    if bookSuccess r.1 then (emptyContext, r.2, .bookedOk r.1)
    else (merged, r.2, .bookedFail r.1)

/-- States of the store reachable by the mutating operations from a store
with no appointments (a fresh or freshly-seeded database: the sample data
creates doctors and schedules, never appointments). -/
inductive Reach : MedState → Prop
  | base (st : MedState) : st.appointments = [] → Reach st
  | create (st : MedState) (d : AppointmentData) (now : Nat) :
      Reach st → Reach (create_appointment st d now).2
  | cancel (st : MedState) (id : String) (now : Nat) :
      Reach st → Reach (cancel_appointment st id now).2
  | addPatient (st : MedState) (name phone : String) (now : Nat) :
      Reach st → Reach (add_patient st name phone now).2

/-- No two non-cancelled appointments occupy the same
(doctor, date, time) slot. -/
def NoConflicts (st : MedState) : Prop :=
  st.appointments.Pairwise fun a b =>
    a.status ≠ ApptStatus.cancelled → b.status ≠ ApptStatus.cancelled →
      ¬(a.doctorId = b.doctorId ∧ a.date = b.date ∧ a.time = b.time)

/-- Concrete therapist from the seeded sample data. -/
def drIvanova : Doctor := ⟨"ivanova_ap", "Иванова Анна Петровна", "therapy", "101"⟩

/-- Her seeded weekly template: Monday, Wednesday, Friday, 09:00-15:00. -/
def schedIvanova : List (String × List (Nat × Window)) :=
  [("ivanova_ap", [(0, ⟨540, 900⟩), (2, ⟨540, 900⟩), (4, ⟨540, 900⟩)])]

/-- A fresh store: doctor and template seeded, no appointments. -/
def st0 : MedState := ⟨[drIvanova], schedIvanova, [], []⟩

/-- A Monday (so the template has a window that day). -/
def day0 : CivilDate := ⟨2024, 3, 18⟩

/-- A scheduled appointment at 09:00 of that Monday. -/
def appt1 : Appointment :=
  ⟨"apt_000001", "ivanova_ap", "Иван", "+79990001111", day0, 540,
    "therapy_consult", "", ApptStatus.scheduled, 0, none⟩

/-- The store after that one booking: the 09:00 slot is taken. -/
def st1 : MedState := ⟨[drIvanova], schedIvanova, [appt1], []⟩

/-- Booking data at 09:17 of that Monday: inside the working window but
not on a 30-minute boundary. -/
def data917 : AppointmentData :=
  ⟨"ivanova_ap", "Пётр", "+79990002222", day0, 557, "therapy_consult", ""⟩

/-- Booking data at 09:30 of that Monday (a regular slot). -/
def data930 : AppointmentData :=
  ⟨"ivanova_ap", "Пётр", "+79990002222", day0, 570, "therapy_consult", ""⟩

/-- Booking data at the taken 09:00 slot of `st1`. -/
def data900 : AppointmentData :=
  ⟨"ivanova_ap", "Пётр", "+79990002222", day0, 540, "therapy_consult", ""⟩

/-- Fully specified booking request aimed at the taken 09:00 slot. -/
def argsTaken : BookArgs :=
  ⟨some "терапевт", none, some day0, some 540, some "Пётр",
    some "+79990002222", none⟩

/-- Merged context carrying the three required fields and the taken
09:00 slot. -/
def ctxFull : BookingContext :=
  ⟨some "терапевт", none, some day0, some 540, some "Пётр",
    some "+79990002222", none⟩

/-! Shared lemmas about the store operations. -/

theorem mem_slotTimes {s e t : Nat} :
    t ∈ slotTimes s e ↔ (∃ k, t = s + 30 * k) ∧ t < e := by
  simp only [slotTimes, List.mem_map, List.mem_range]
  constructor
  · rintro ⟨k, hk, rfl⟩
    exact ⟨⟨k, rfl⟩, by omega⟩
  · rintro ⟨⟨k, rfl⟩, hlt⟩
    exact ⟨k, by omega, rfl⟩

theorem slotTimes_pairwise (s e : Nat) : (slotTimes s e).Pairwise (· < ·) :=
  (List.pairwise_lt_range _).map _ (fun a b h => by omega)

theorem check_availability_iff {st : MedState} {docId : String}
    {date : CivilDate} {t : Nat} :
    check_appointment_availability st docId date t = true ↔
      ∃ w, get_doctor_schedule st docId date = some w ∧
        w.startT ≤ t ∧ t ≤ w.endT ∧
        ∀ a ∈ st.appointments, a.doctorId = docId → a.date = date →
          a.time = t → a.status = ApptStatus.cancelled := by
  unfold check_appointment_availability
  cases h : get_doctor_schedule st docId date with
  | none => simp
  | some w =>
    simp only [Option.some.injEq]
    constructor
    · intro hc
      refine ⟨w, rfl, ?_⟩
      by_cases hb : (w.startT ≤ t && t ≤ w.endT) = true
      · rw [if_pos hb] at hc
        simp only [Bool.and_eq_true, decide_eq_true_eq] at hb
        refine ⟨hb.1, hb.2, ?_⟩
        intro a ha h1 h2 h3
        have := (List.all_eq_true.mp hc) a ha
        simp only [Bool.not_eq_true', Bool.and_eq_false_iff, beq_eq_false_iff_ne,
          bne_eq_false_iff_eq] at this
        rcases this with ((h | h) | h) | h
        · exact absurd h1 h
        · exact absurd h2 h
        · exact absurd h3 h
        · exact h
      · rw [if_neg hb] at hc
        exact absurd hc (by simp)
    · rintro ⟨w', hw', hs, he, hfree⟩
      cases hw'
      have hb : (w.startT ≤ t && t ≤ w.endT) = true := by
        simp [hs, he]
      rw [if_pos hb]
      refine List.all_eq_true.mpr fun a ha => ?_
      by_cases h1 : a.doctorId = docId
      · by_cases h2 : a.date = date
        · by_cases h3 : a.time = t
          · have := hfree a ha h1 h2 h3
            simp [h1, h2, h3, this]
          · simp [h3]
        · simp [h2]
      · simp [h1]

theorem create_not_available {st : MedState} {d : AppointmentData} {now : Nat}
    (h : check_appointment_availability st d.doctorId d.date d.time = false) :
    create_appointment st d now = (⟨false, none⟩, st) := by
  unfold create_appointment
  rw [h]
  rfl

theorem cancelFirst_mem {id : String} {now : Nat} {l : List Appointment}
    {b : Appointment} (hb : b ∈ (cancelFirst id now l).2) :
    b ∈ l ∨ ∃ a ∈ l, b = cancelledCopy a now := by
  induction l with
  | nil => simp [cancelFirst] at hb
  | cons a rest ih =>
    by_cases ha : (a.id == id) = true
    · simp only [cancelFirst, ha, if_true] at hb
      rcases List.mem_cons.mp hb with h | h
      · exact Or.inr ⟨a, List.mem_cons_self a rest, h⟩
      · exact Or.inl (List.mem_cons_of_mem a h)
    · simp only [cancelFirst, ha, if_false] at hb
      rcases List.mem_cons.mp hb with h | h
      · exact Or.inl (h ▸ List.mem_cons_self a rest)
      · rcases ih h with h' | ⟨c, hc, hbc⟩
        · exact Or.inl (List.mem_cons_of_mem a h')
        · exact Or.inr ⟨c, List.mem_cons_of_mem a hc, hbc⟩

theorem cancelFirst_not_found {id : String} {now : Nat} {l : List Appointment}
    (h : ∀ a ∈ l, a.id ≠ id) : cancelFirst id now l = (false, l) := by
  induction l with
  | nil => rfl
  | cons a rest ih =>
    have ha : (a.id == id) = false :=
      beq_eq_false_iff_ne.mpr (h a (List.mem_cons_self a rest))
    simp [cancelFirst, ha, ih fun b hb => h b (List.mem_cons_of_mem a hb)]

theorem cancelFirst_found {id : String} {now : Nat} {l : List Appointment}
    (h : ∃ a ∈ l, a.id = id) : (cancelFirst id now l).1 = true := by
  induction l with
  | nil => simp at h
  | cons a rest ih =>
    by_cases ha : (a.id == id) = true
    · simp [cancelFirst, ha]
    · simp only [cancelFirst, ha, if_false]
      rcases h with ⟨b, hb, hbid⟩
      rcases List.mem_cons.mp hb with rfl | hb'
      · exact absurd (beq_iff_eq.mpr hbid) (by simpa using ha)
      · exact ih ⟨b, hb', hbid⟩

theorem cancelFirst_length {id : String} {now : Nat} {l : List Appointment} :
    ((cancelFirst id now l).2).length = l.length := by
  induction l with
  | nil => rfl
  | cons a rest ih =>
    by_cases ha : (a.id == id) = true
    · simp [cancelFirst, ha]
    · simp [cancelFirst, ha, ih]

theorem cancelFirst_status_mono {id : String} {now : Nat}
    {l : List Appointment} :
    List.Forall₂ (fun b a : Appointment =>
        a.status = ApptStatus.cancelled → b.status = ApptStatus.cancelled)
      (cancelFirst id now l).2 l := by
  induction l with
  | nil => exact List.Forall₂.nil
  | cons a rest ih =>
    by_cases ha : (a.id == id) = true
    · rw [show (cancelFirst id now (a :: rest)).2 = cancelledCopy a now :: rest
        from by simp [cancelFirst, ha]]
      exact List.Forall₂.cons (fun _ => rfl)
        (List.forall₂_same.mpr fun b _ hb => hb)
    · rw [show (cancelFirst id now (a :: rest)).2
          = a :: (cancelFirst id now rest).2
        from by simp [cancelFirst, ha]]
      exact List.Forall₂.cons (fun hb => hb) ih

theorem cancelFirst_pairwise {id : String} {now : Nat} {l : List Appointment}
    (h : l.Pairwise fun a b =>
      a.status ≠ ApptStatus.cancelled → b.status ≠ ApptStatus.cancelled →
        ¬(a.doctorId = b.doctorId ∧ a.date = b.date ∧ a.time = b.time)) :
    ((cancelFirst id now l).2).Pairwise fun a b =>
      a.status ≠ ApptStatus.cancelled → b.status ≠ ApptStatus.cancelled →
        ¬(a.doctorId = b.doctorId ∧ a.date = b.date ∧ a.time = b.time) := by
  induction l with
  | nil => simp [cancelFirst]
  | cons a rest ih =>
    rcases List.pairwise_cons.mp h with ⟨hrel, hrest⟩
    by_cases ha : (a.id == id) = true
    · simp only [cancelFirst, ha, if_true]
      refine List.pairwise_cons.mpr ⟨?_, hrest⟩
      intro b _ hcanc _
      exact absurd rfl hcanc
    · simp only [cancelFirst, ha, if_false]
      refine List.pairwise_cons.mpr ⟨?_, ih hrest⟩
      intro b hb
      rcases cancelFirst_mem hb with hb' | ⟨c, _, rfl⟩
      · exact hrel b hb'
      · intro _ hcanc
        exact absurd rfl hcanc

theorem check_of_mem_available {st : MedState} {docId : String}
    {date : CivilDate} {t : Nat}
    (h : t ∈ get_available_times st docId date) :
    check_appointment_availability st docId date t = true := by
  unfold get_available_times at h
  cases hw : get_doctor_schedule st docId date with
  | none =>
    rw [hw] at h
    exact absurd h (List.not_mem_nil t)
  | some w =>
    rw [hw] at h
    exact List.of_mem_filter h

/-! Claim theorems. -/

/-- C4: for every doctor id, date, and well-formed HH:MM time (a minute
count of at most 23:59), `check_appointment_availability` returns true iff
the doctor has a working window on that date's weekday, the time falls
within [start, end] inclusive, and no non-cancelled appointment exists at
that exact (doctor, date, time). -/
theorem C4_isSlotFree_iff (st : MedState) (docId : String) (date : CivilDate)
    (t : Nat) (_hwf : t ≤ 1439) :
    check_appointment_availability st docId date t = true ↔
      ∃ w, get_doctor_schedule st docId date = some w ∧
        w.startT ≤ t ∧ t ≤ w.endT ∧
        ∀ a ∈ st.appointments, a.doctorId = docId → a.date = date →
          a.time = t → a.status = ApptStatus.cancelled :=
  check_availability_iff

theorem C4_isSlotFree_iff_witness :
    ∃ w, get_doctor_schedule st1 "ivanova_ap" day0 = some w ∧
      w.startT ≤ 570 ∧ 570 ≤ w.endT ∧
      ∀ a ∈ st1.appointments, a.doctorId = "ivanova_ap" → a.date = day0 →
        a.time = 570 → a.status = ApptStatus.cancelled :=
  (C4_isSlotFree_iff st1 "ivanova_ap" day0 570 (by decide)).mp (by decide)

/-- C5: `get_available_times` returns exactly the 30-minute boundaries
from the day's window start (inclusive) to its end (exclusive) at which
the slot is free, in increasing time order; for a doctor with no working
window on that date's weekday the result is the empty list. -/
theorem C5_available_times (st : MedState) (docId : String)
    (date : CivilDate) :
    (get_doctor_schedule st docId date = none →
      get_available_times st docId date = []) ∧
    ∀ w, get_doctor_schedule st docId date = some w →
      (∀ t, t ∈ get_available_times st docId date ↔
          (∃ k, t = w.startT + 30 * k) ∧ t < w.endT ∧
            check_appointment_availability st docId date t = true) ∧
      (get_available_times st docId date).Pairwise (· < ·) := by
  constructor
  · intro h
    unfold get_available_times
    rw [h]
  · intro w hw
    unfold get_available_times
    rw [hw]
    constructor
    · intro t
      simp only [List.mem_filter, mem_slotTimes, and_assoc]
    · exact List.Pairwise.sublist (List.filter_sublist _) (slotTimes_pairwise _ _)

theorem C5_available_times_witness :
    570 ∈ get_available_times st1 "ivanova_ap" day0 ∧
    get_available_times st0 "ivanova_ap" ⟨2024, 3, 19⟩ = [] :=
  ⟨(((C5_available_times st1 "ivanova_ap" day0).2 ⟨540, 900⟩ (by decide)).1
      570).mpr ⟨⟨1, by decide⟩, by decide, by decide⟩,
   (C5_available_times st0 "ivanova_ap" ⟨2024, 3, 19⟩).1 (by decide)⟩

/-- C3: every store state reachable by the operations from an
appointment-free store has no two non-cancelled appointments sharing a
(doctor, date, time) slot, and `create_appointment` re-checks slot
freedom itself: on a taken slot it fails and appends nothing. -/
theorem C3_no_double_booking :
    (∀ st, Reach st → NoConflicts st) ∧
    ∀ st d now,
      check_appointment_availability st d.doctorId d.date d.time = false →
        (create_appointment st d now).1.success = false ∧
        (create_appointment st d now).2 = st := by
  constructor
  · intro st h
    induction h with
    | base st hempty =>
      unfold NoConflicts
      rw [hempty]
      exact List.Pairwise.nil
    | create st d now _ ih =>
      cases hcb : check_appointment_availability st d.doctorId d.date d.time with
      | false =>
        rw [create_not_available hcb]
        exact ih
      | true =>
        unfold NoConflicts create_appointment
        simp only [hcb, if_true]
        refine List.pairwise_append.mpr ⟨ih, List.pairwise_singleton _ _, ?_⟩
        intro a ha b hb
        rcases List.mem_singleton.mp hb with rfl
        intro hanc _ htup
        rcases check_availability_iff.mp hcb with ⟨w, _, _, _, hfree⟩
        exact hanc (hfree a ha htup.1 htup.2.1 htup.2.2)
    | cancel st id now _ ih =>
      exact cancelFirst_pairwise ih
    | addPatient st name phone now _ ih =>
      exact ih
  · intro st d now h
    rw [create_not_available h]
    exact ⟨rfl, rfl⟩

theorem C3_no_double_booking_witness :
    NoConflicts (create_appointment st0 data930 0).2 ∧
    (create_appointment st1 data900 0).1.success = false ∧
    (create_appointment st1 data900 0).2 = st1 :=
  ⟨C3_no_double_booking.1 _ (Reach.create st0 data930 0 (Reach.base st0 rfl)),
   C3_no_double_booking.2 st1 data900 0 (by decide)⟩

/-- C2 counterexample: `create_appointment` accepts 09:17 (minute 557,
not a 30-minute boundary) inside the 09:00-15:00 window — the committed
appointment's time is not a multiple of 30 minutes past the hour. -/
theorem C2_slot_granularity_cex :
    (create_appointment st0 data917 0).1.success = true ∧
    ¬∀ a ∈ (create_appointment st0 data917 0).2.appointments,
        a.time % 30 = 0 := by
  decide

/-- C2 amended: `create_appointment` only enforces that an accepted time
lies inside the doctor's working window; 30-minute alignment holds for
the times enumerated by `get_available_times`, which are exactly
window-start plus a multiple of 30 minutes. -/
theorem C2_slot_granularity_amended (st : MedState) (d : AppointmentData)
    (now : Nat) (docId : String) (date : CivilDate) (t : Nat) :
    ((create_appointment st d now).1.success = true →
      ∃ w, get_doctor_schedule st d.doctorId d.date = some w ∧
        w.startT ≤ d.time ∧ d.time ≤ w.endT) ∧
    (t ∈ get_available_times st docId date →
      ∃ w k, get_doctor_schedule st docId date = some w ∧
        t = w.startT + 30 * k) := by
  constructor
  · intro hs
    have hc : check_appointment_availability st d.doctorId d.date d.time
        = true := by
      cases hcb : check_appointment_availability st d.doctorId d.date d.time with
      | false =>
        rw [create_not_available hcb] at hs
        simp at hs
      | true => rfl
    rcases check_availability_iff.mp hc with ⟨w, hw, hs', he, _⟩
    exact ⟨w, hw, hs', he⟩
  · intro ht
    unfold get_available_times at ht
    cases hw : get_doctor_schedule st docId date with
    | none =>
      rw [hw] at ht
      exact absurd ht (List.not_mem_nil t)
    | some w =>
      rw [hw] at ht
      rcases mem_slotTimes.mp (List.mem_filter.mp ht).1 with ⟨⟨k, hk⟩, _⟩
      exact ⟨w, k, rfl, hk⟩

theorem C2_slot_granularity_amended_witness :
    (∃ w, get_doctor_schedule st0 "ivanova_ap" day0 = some w ∧
      w.startT ≤ data917.time ∧ data917.time ≤ w.endT) ∧
    ∃ w k, get_doctor_schedule st1 "ivanova_ap" day0 = some w ∧
      570 = w.startT + 30 * k :=
  ⟨(C2_slot_granularity_amended st0 data917 0 "ivanova_ap" day0 570).1
      (by decide),
   (C2_slot_granularity_amended st1 data917 0 "ivanova_ap" day0 570).2
      (by decide)⟩

/-- C6 counterexample: after a first successful cancellation of
`apt_000001`, a second cancellation neither reports not-found nor is a
no-op — it reports success again and re-stamps `cancelled_at`. -/
theorem C6_cancel_twice_cex :
    ¬((cancel_appointment (cancel_appointment st1 "apt_000001" 100).2
          "apt_000001" 200).1.success = false ∨
      (cancel_appointment (cancel_appointment st1 "apt_000001" 100).2
          "apt_000001" 200).2
        = (cancel_appointment st1 "apt_000001" 100).2) := by
  decide

/-- C6 amended: `cancel_appointment` on an id absent from the store
reports not-found and changes nothing; on a present id it reports success
(also when called again on an already-cancelled appointment, where it
only re-stamps the cancellation time); and a cancelled appointment never
toggles back — pointwise, every appointment cancelled before the call is
still cancelled after it. -/
theorem C6_cancel_amended (st : MedState) (id : String) (now : Nat) :
    ((∀ a ∈ st.appointments, a.id ≠ id) →
      cancel_appointment st id now = (⟨false⟩, st)) ∧
    ((∃ a ∈ st.appointments, a.id = id) →
      (cancel_appointment st id now).1.success = true) ∧
    List.Forall₂ (fun b a : Appointment =>
        a.status = ApptStatus.cancelled → b.status = ApptStatus.cancelled)
      (cancel_appointment st id now).2.appointments st.appointments := by
  refine ⟨?_, ?_, ?_⟩
  · intro h
    unfold cancel_appointment
    rw [cancelFirst_not_found h]
  · intro h
    exact cancelFirst_found h
  · exact cancelFirst_status_mono

theorem C6_cancel_amended_witness :
    cancel_appointment st1 "apt_999999" 7 = (⟨false⟩, st1) ∧
    (cancel_appointment st1 "apt_000001" 5).1.success = true :=
  ⟨(C6_cancel_amended st1 "apt_999999" 7).1 (by decide),
   (C6_cancel_amended st1 "apt_000001" 5).2.1 (by decide)⟩

/-- C1: the relative-keyword branch of `parse_date_from_text`, evaluated
on concrete texts with today = 2024-03-15: "сегодня" yields today and
"завтра" yields today+1 as claimed, but a text containing "послезавтра"
also contains the substring "завтра", so the earlier `elif` fires and the
result is today+1, not the today+2 of the (unreachable) "послезавтра"
branch; the numeric form "15.03.2024" round-trips exactly. -/
theorem C1_relative_dates_eval :
    parse_date_from_text ⟨2024, 3, 15⟩ false "сегодня" = some ⟨2024, 3, 15⟩ ∧
    parse_date_from_text ⟨2024, 3, 15⟩ false "завтра" = some ⟨2024, 3, 16⟩ ∧
    parse_date_from_text ⟨2024, 3, 15⟩ false "послезавтра"
      = some ⟨2024, 3, 16⟩ ∧
    addDays ⟨2024, 3, 15⟩ 2 = ⟨2024, 3, 17⟩ ∧
    parse_date_from_text ⟨2024, 3, 15⟩ false "запись на 15.03.2024"
      = some ⟨2024, 3, 15⟩ := by
  decide

/-- C10: when a text reaches the regex section of `parse_date_from_text`
(no relative keyword, no weekday name) and one of the numeric or
month-name patterns matches groups naming an invalid calendar date, the
extraction returns today's date — the caught `ValueError` fallback —
rather than the "not found" sentinel. -/
theorem C10_invalid_date_falls_back (today : CivilDate)
    (nowPastMidnight : Bool) (text : String)
    (h1 : containsSub "сегодня" text = false)
    (h2 : containsSub "завтра" text = false)
    (h3 : containsSub "послезавтра" text = false)
    (h4 : weekday_mapping.find? (fun p => containsSub p.1 text) = none) :
    (∀ d m y, searchAt matchDMYat text.toList = some (d, m, y) →
      validDate y m d = false →
      parse_date_from_text today nowPastMidnight text = some today) ∧
    (searchAt matchDMYat text.toList = none →
      ∀ d m, searchAt matchDMat text.toList = some (d, m) →
        validDate today.year m d = false →
        parse_date_from_text today nowPastMidnight text = some today) ∧
    (searchAt matchDMYat text.toList = none →
      searchAt matchDMat text.toList = none →
      ∀ d name, searchAt matchDMonthAt text.toList = some (d, name) →
        validDate today.year ((month_mapping.lookup name).getD 1) d = false →
        parse_date_from_text today nowPastMidnight text = some today) := by
  refine ⟨?_, ?_, ?_⟩
  · intro d m y hs hv
    unfold parse_date_from_text
    simp only [h1, h2, h3, h4, Bool.false_eq_true, if_false, hs]
    unfold parse_date_match_dmy mkDate
    rw [hv]
    simp
  · intro hn d m hs hv
    unfold parse_date_from_text
    simp only [h1, h2, h3, h4, Bool.false_eq_true, if_false, hn, hs]
    unfold parse_date_match_dm mkDate
    rw [hv]
    simp
  · intro hn1 hn2 d name hs hv
    unfold parse_date_from_text
    simp only [h1, h2, h3, h4, Bool.false_eq_true, if_false, hn1, hn2, hs]
    unfold parse_date_match_month parse_date_match_dm mkDate
    rw [hv]
    simp

theorem C10_invalid_date_falls_back_witness :
    parse_date_from_text ⟨2024, 3, 15⟩ false "31.02.2024"
      = some ⟨2024, 3, 15⟩ :=
  (C10_invalid_date_falls_back ⟨2024, 3, 15⟩ false "31.02.2024"
    (by decide) (by decide) (by decide) (by decide)).1
    31 2 2024 (by decide) (by decide)

/-- C7: the 12-hour heuristic conversions of `_parse_time_match`:
"HH утра" keeps the literal hour except 12, which becomes 0; "HH дня" and
"HH вечера" add 12 when the hour is below 12, so "12 дня" stays 12; and
every heuristic result is an HH:MM string with minutes 00. -/
theorem C7_twelve_hour_heuristics (h : Nat) :
    (h ≠ 12 → parse_time_match (.morning h) = timeString h 0) ∧
    parse_time_match (.morning 12) = timeString 0 0 ∧
    (h < 12 → parse_time_match (.afternoon h) = timeString (h + 12) 0 ∧
      parse_time_match (.evening h) = timeString (h + 12) 0) ∧
    (¬h < 12 → parse_time_match (.afternoon h) = timeString h 0 ∧
      parse_time_match (.evening h) = timeString h 0) ∧
    parse_time_match (.afternoon 12) = timeString 12 0 ∧
    (∃ h1, parse_time_match (.morning h) = timeString h1 0) ∧
    (∃ h2, parse_time_match (.afternoon h) = timeString h2 0) ∧
    (∃ h3, parse_time_match (.evening h) = timeString h3 0) ∧
    timeString 0 0 = "00:00" ∧ timeString 12 0 = "12:00" := by
  refine ⟨?_, rfl, ?_, ?_, ?_, ?_, ?_, ?_, by decide, by decide⟩
  · intro hne
    simp only [parse_time_match, beq_eq_false_iff_ne.mpr hne,
      Bool.false_eq_true, if_false]
  · intro hh
    exact ⟨by simp only [parse_time_match, if_pos hh],
      by simp only [parse_time_match, if_pos hh]⟩
  · intro hh
    exact ⟨by simp only [parse_time_match, if_neg hh],
      by simp only [parse_time_match, if_neg hh]⟩
  · simp [parse_time_match]
  · exact ⟨if h == 12 then 0 else h, rfl⟩
  · exact ⟨if h < 12 then h + 12 else h, rfl⟩
  · exact ⟨if h < 12 then h + 12 else h, rfl⟩

theorem C7_twelve_hour_heuristics_witness :
    parse_time_match (.morning 9) = timeString 9 0 ∧
    parse_time_match (.afternoon 2) = timeString 14 0 ∧
    parse_time_match (.evening 18) = timeString 18 0 :=
  ⟨(C7_twelve_hour_heuristics 9).1 (by decide),
   ((C7_twelve_hour_heuristics 2).2.2.1 (by decide)).1,
   ((C7_twelve_hour_heuristics 18).2.2.2.1 (by decide)).2⟩

/-- C8: when a booking request resolves to a doctor, date, and time whose
slot is not free, `book_appointment` commits nothing (the store is
returned unchanged) and fails with the at-most-3 alternative free times
of that date, or with a "no free time that date" failure when the day has
none; every suggested time is itself free. -/
theorem C8_slot_taken_alternatives (st : MedState) (a : BookArgs)
    (today : CivilDate) (now : Nat) (sTxt spec : String) (doc : Doctor)
    (t : Nat)
    (h1 : a.doctorSpecialty = some sTxt) (h1e : (sTxt == "") = false)
    (h2 : normalize_specialty sTxt = some spec)
    (h4 : select_doctor (get_doctors_by_specialty st spec) a.doctorName
      = some doc)
    (h5 : a.time = some t)
    (h6 : check_appointment_availability st doc.id
      (resolve_date st doc.id today a.date) t = false) :
    (book_appointment st a today now).2 = st ∧
    (get_available_times st doc.id (resolve_date st doc.id today a.date)
        = [] →
      (book_appointment st a today now).1
        = .noFreeTimeChooseOther (resolve_date st doc.id today a.date)) ∧
    (get_available_times st doc.id (resolve_date st doc.id today a.date)
        ≠ [] →
      (book_appointment st a today now).1
        = .slotTaken t ((get_available_times st doc.id
            (resolve_date st doc.id today a.date)).take 3) ∧
      ((get_available_times st doc.id
          (resolve_date st doc.id today a.date)).take 3).length ≤ 3 ∧
      ∀ u ∈ (get_available_times st doc.id
          (resolve_date st doc.id today a.date)).take 3,
        check_appointment_availability st doc.id
          (resolve_date st doc.id today a.date) u = true) := by
  cases hl : get_doctors_by_specialty st spec with
  | nil =>
    rw [hl] at h4
    cases hdn : a.doctorName <;> simp [select_doctor, hdn] at h4
  | cons doc0 rest =>
    rw [hl] at h4
    have hbook : book_appointment st a today now
        = book_appointment.bookAtSlot st a doc spec
            (resolve_date st doc.id today a.date) t now := by
      unfold book_appointment
      rw [h1]
      simp only [h1e, Bool.false_eq_true, if_false, h2, hl, h4, h5]
    rw [hbook]
    unfold book_appointment.bookAtSlot
    rw [h6]
    simp only [Bool.false_eq_true, if_false]
    cases hav : get_available_times st doc.id
        (resolve_date st doc.id today a.date) with
    | nil =>
      refine ⟨rfl, fun _ => rfl, fun hne => absurd rfl hne⟩
    | cons t0 ts =>
      refine ⟨rfl, fun he => absurd he (by simp), fun _ => ⟨rfl, ?_, ?_⟩⟩
      · rw [← hav]
        exact List.length_take_le 3 _
      · intro u hu
        refine check_of_mem_available (List.take_subset 3 _ ?_)
        rw [hav]
        exact hu

theorem C8_slot_taken_alternatives_witness :
    (book_appointment st1 argsTaken day0 0).2 = st1 ∧
    (book_appointment st1 argsTaken day0 0).1
      = .slotTaken 540
          ((get_available_times st1 "ivanova_ap" day0).take 3) :=
  ⟨(C8_slot_taken_alternatives st1 argsTaken day0 0 "терапевт" "therapy"
      drIvanova 540 rfl (by decide) (by decide) (by decide) rfl
      (by decide)).1,
   ((C8_slot_taken_alternatives st1 argsTaken day0 0 "терапевт" "therapy"
      drIvanova 540 rfl (by decide) (by decide) (by decide) rfl
      (by decide)).2.2 (by decide)).1⟩

/-- C9 counterexample: handling an utterance from which nothing is
extracted, starting from the fresh empty context, leaves the context
empty although no commit succeeded (the agent merely asks for the missing
required fields) — so "context empty iff commit succeeded" fails. -/
theorem C9_context_cleared_cex :
    ¬(((handle_appointment_booking emptyContext emptyExtract st0 day0 0).1
          = emptyContext) ↔
      respSuccess
          (handle_appointment_booking emptyContext emptyExtract st0 day0 0).2.2
        = true) := by
  decide

/-- C9 amended: on a successful commit the context is cleared entirely;
on every other outcome the context equals the merge of the previous
context with the newly extracted fields (so it is preserved, not
cleared); and whenever a booking is actually attempted — all required
fields present after the merge — the context ends empty iff the commit
succeeded. -/
theorem C9_context_cleared_amended (ctx : BookingContext) (e : ExtractedInfo)
    (st : MedState) (today : CivilDate) (now : Nat) :
    (respSuccess (handle_appointment_booking ctx e st today now).2.2 = true →
      (handle_appointment_booking ctx e st today now).1 = emptyContext) ∧
    (respSuccess (handle_appointment_booking ctx e st today now).2.2 = false →
      (handle_appointment_booking ctx e st today now).1
        = updateContext ctx e) ∧
    (missingFields (updateContext ctx e) = [] →
      ((handle_appointment_booking ctx e st today now).1 = emptyContext ↔
        respSuccess (handle_appointment_booking ctx e st today now).2.2
          = true)) := by
  unfold handle_appointment_booking
  cases hm : missingFields (updateContext ctx e) with
  | cons f fs =>
    simp only [hm]
    refine ⟨?_, ?_, ?_⟩
    · intro hx
      exact absurd hx (by simp [respSuccess])
    · simp
    · intro h0
      exact absurd h0 (by simp)
  | nil =>
    simp only [hm]
    have hsp : fieldMissing (updateContext ctx e).specialty = false := by
      cases hx : fieldMissing (updateContext ctx e).specialty with
      | false => rfl
      | true =>
        unfold missingFields at hm
        rw [hx] at hm
        simp at hm
    have hne : updateContext ctx e ≠ emptyContext := by
      intro heq
      rw [heq] at hsp
      simp [fieldMissing, emptyContext] at hsp
    cases hb : bookSuccess (book_appointment st
        ⟨(updateContext ctx e).specialty, (updateContext ctx e).doctorName,
          (updateContext ctx e).date, (updateContext ctx e).time,
          (updateContext ctx e).patientName,
          (updateContext ctx e).patientPhone,
          (updateContext ctx e).complaint⟩ today now).1 with
    | true =>
      simp only [hb, if_true]
      refine ⟨?_, ?_, ?_⟩
      · simp
      · intro hx
        exact absurd hx (by simp [respSuccess])
      · intro _
        simp [respSuccess]
    | false =>
      simp only [hb, Bool.false_eq_true, if_false]
      refine ⟨?_, ?_, ?_⟩
      · intro hx
        exact absurd hx (by simp [respSuccess])
      · simp
      · intro _
        simp [respSuccess, hne]

theorem C9_context_cleared_amended_witness :
    (handle_appointment_booking ctxFull emptyExtract st1 day0 0).1
      = updateContext ctxFull emptyExtract ∧
    ((handle_appointment_booking ctxFull emptyExtract st1 day0 0).1
        = emptyContext ↔
      respSuccess
          (handle_appointment_booking ctxFull emptyExtract st1 day0 0).2.2
        = true) :=
  ⟨(C9_context_cleared_amended ctxFull emptyExtract st1 day0 0).2.1
      (by decide),
   (C9_context_cleared_amended ctxFull emptyExtract st1 day0 0).2.2
      (by decide)⟩

end Clinic
